import Mathlib

/-! Verification of `taylor/integrity.py` (download integrity checks for an
OpenStack Swift object store).

The Python module is shallowly embedded as follows.

* A local file is a finite byte sequence, modelled as `List ℕ`.
* The remote store is a `SwiftWorld`: a function `stat` giving, for a
  container/object pair, the metadata record that the `swift stat`
  subprocess call plus the regex extraction would yield (`none` models an
  empty stat output), and a function `list` giving the
  whitespace-split segment listing that `swift list <container>` filtered
  by the object-name would yield.
* A `StatRecord` holds the three fields the source extracts by regex:
  the parsed `Content Length` capture, the `Manifest` capture, and the
  `ETag` capture, each optional because the regex search can fail.
* Python exceptions are the inductive `PyErr`; fallible functions return
  `Except PyErr Bool`.
* MD5 is abstracted as a parameter `md5hex : List ℕ → String`; the
  concrete `dHash` below is an executable stand-in used for concrete runs.
* Each checker also returns the list of remote calls (`RemoteCall`) it
  performed, in order, so that statements about which remote reads happen
  (short-circuiting, container resolution) are provable.
* `local_file.read(S)` iterated until the empty-string sentinel (Python 2
  semantics: the loop of `md5_check`) is `pyChunks`: for `S < 0` a read
  returns the whole remainder, for `S = 0` it returns `''` at once, and
  for `S > 0` it returns successive `S`-byte chunks.
-/

deriving instance DecidableEq for Except

namespace Taylor

/-- Python exception values raised by `integrity.py`, carrying the
exception class and message. -/
inductive PyErr : Type where
  | valueError (msg : String) : PyErr
  | attributeError (msg : String) : PyErr
  | typeError (msg : String) : PyErr
  | indexError : PyErr
deriving DecidableEq

/-- The fields that the source extracts from a `swift stat` output with
the regexes `Content Length:\s+(\d+)`, `Manifest:\s+(\S+)` and
`ETag:\s+(\w+)`; a `none` field models a failed regex search. -/
structure StatRecord : Type where
  content_length : Option ℕ
  manifest : Option String
  etag : Option String
deriving DecidableEq

/-- The remote object store: `stat container object` is the metadata
record extracted from the `swift stat` output (`none` for an empty
output), and `list container objectName` is the already
whitespace-split output of `swift list container` filtered by the
object-name. -/
structure SwiftWorld : Type where
  stat : String → String → Option StatRecord
  list : String → String → List String

/-- One remote read performed by a checker. -/
inductive RemoteCall : Type where
  | stat (container object : String) : RemoteCall
  | list (container object : String) : RemoteCall
deriving DecidableEq

/-- The ASCII whitespace characters removed by Python's `str.strip()`:
space, tab, newline, carriage return, vertical tab and form feed. -/
def isPySpace (c : Char) : Bool :=
  c.toNat = 32 ∨ c.toNat = 9 ∨ c.toNat = 10 ∨ c.toNat = 13 ∨ c.toNat = 11 ∨ c.toNat = 12

/-- Python's `str.strip()` with no argument: remove whitespace at both
ends. -/
def pyStrip (s : String) : String :=
  ⟨((s.data.dropWhile isPySpace).reverse.dropWhile isPySpace).reverse⟩

/-- Python's `str.lower()`: map ASCII uppercase letters to lowercase. -/
def pyLower (s : String) : String :=
  ⟨s.data.map (fun c =>
    if 65 ≤ c.toNat ∧ c.toNat ≤ 90 then Char.ofNat (c.toNat + 32) else c)⟩

/-- Decimal value of an ASCII digit character. -/
def digitVal (c : Char) : Option ℕ :=
  if 48 ≤ c.toNat ∧ c.toNat ≤ 57 then some (c.toNat - 48) else none

/-- Parse a non-empty all-digit character list as a natural number. -/
def digitsToNat : List Char → Option ℕ
  | [] => none
  | cs => cs.foldl (fun acc c => acc.bind (fun a => (digitVal c).map (a * 10 + ·))) (some 0)

/-- Python's `int(s)` on a string: ignore surrounding whitespace, then
parse an optionally signed decimal numeral; raise `ValueError`
otherwise. -/
def pyInt (s : String) : Except PyErr ℤ :=
  let t := (pyStrip s).data
  let r : Option ℤ :=
    match t with
    | '-' :: ds => (digitsToNat ds).map (fun a => -(a : ℤ))
    | '+' :: ds => (digitsToNat ds).map (fun a => (a : ℤ))
    | ds => (digitsToNat ds).map (fun a => (a : ℤ))
  match r with
  | some k => Except.ok k
  | none => Except.error (PyErr.valueError "invalid literal for int()")

/-- Python's `str.split('/')`: cut at every slash, keeping empty
pieces, so the result always has one more piece than there are
slashes. -/
def splitSlashAux : List Char → List Char → List String
  | [], acc => [⟨acc.reverse⟩]
  | c :: rest, acc =>
    if c.toNat = 47 then ⟨acc.reverse⟩ :: splitSlashAux rest []
    else splitSlashAux rest (c :: acc)

/-- Python's `s.split('/')` on a string. -/
def pySplitSlash (s : String) : List String := splitSlashAux s.data []

/-- The read loop of `md5_check` for a positive chunk size `S`:
`iter(partial(local_file.read, S), '')` keeps returning the next `S`
bytes (the final chunk possibly shorter) until the file is exhausted.
For `S = 0` every `read(0)` returns the empty sentinel at once, so no
chunk is produced. -/
def chunksNat (S : ℕ) (bs : List ℕ) : List (List ℕ) :=
  if S = 0 ∨ bs = [] then []
  else bs.take S :: chunksNat S (bs.drop S)
termination_by bs.length
decreasing_by
  rename_i h
  push_neg at h
  simp only [List.length_drop]
  exact Nat.sub_lt (List.length_pos.mpr h.2) (Nat.pos_of_ne_zero h.1)

/-- Unfolding equation for `chunksNat`. -/
theorem chunksNat_eq (S : ℕ) (bs : List ℕ) :
    chunksNat S bs = if S = 0 ∨ bs = [] then [] else bs.take S :: chunksNat S (bs.drop S) := by
  rw [chunksNat]

/-- The read loop of `md5_check` for an arbitrary integer chunk size:
Python's `file.read(S)` with negative `S` returns the whole remainder
(so the loop yields the whole file as one chunk, or none when the file
is empty); otherwise see `chunksNat`. -/
def pyChunks (S : ℤ) (bs : List ℕ) : List (List ℕ) :=
  if S < 0 then (if bs = [] then [] else [bs])
  else chunksNat S.toNat bs

/-- Line 170 of the source: `segment_container if segment_container else
object_container + '_segments'` — Python truthiness, so both `None` and
the empty string fall back to the naming convention. -/
def resolveSegContainer (segment_container : Option String) (object_container : String) : String :=
  match segment_container with
  | some s => if s = "" then object_container ++ "_segments" else s
  | none => object_container ++ "_segments"

/-- Line 189 of the source: `int(segment_size) if segment_size else
int(segments[0].split('/')[-2])` — use the hint when non-zero, else
parse the second-to-last `/`-separated component of the first segment
name (raising `IndexError` when there is no first segment or fewer than
two components). -/
def effSegSize (segment_size : ℤ) (segments : List String) : Except PyErr ℤ :=
  if segment_size ≠ 0 then Except.ok segment_size
  else
    match segments with
    | [] => Except.error PyErr.indexError
    | s0 :: _ =>
      let parts := pySplitSlash s0
      if h : 2 ≤ parts.length then
        pyInt (parts.get ⟨parts.length - 2, by omega⟩)
      else Except.error PyErr.indexError

/-- The set comprehension of lines 176-183 of the source: stat each
segment in order, extract and strip its ETag, and collect the results
into a set; the first segment whose stat output has no ETag match makes
the comprehension raise, re-raised as
`AttributeError('ETag not found for segment in swift stat')`.
Also returns the stat calls performed before stopping. -/
def remoteSegmentMd5s (w : SwiftWorld) (container : String) :
    List String → Finset String → List RemoteCall × Except PyErr (Finset String)
  | [], acc => ([], Except.ok acc)
  | seg :: rest, acc =>
    match (w.stat container seg).bind StatRecord.etag with
    | none => ([RemoteCall.stat container seg],
        Except.error (PyErr.attributeError "ETag not found for segment in swift stat"))
    | some e =>
      let r := remoteSegmentMd5s w container rest (insert (pyStrip e) acc)
      (RemoteCall.stat container seg :: r.1, r.2)

/-- Embedding of `filesize_check` (lines 86-111 of the source): stat the
object; raise `ValueError('Swift stat returned nothing')` on empty
output, `AttributeError` when the Content Length regex finds nothing,
and otherwise return whether the parsed content length equals the local
file's byte length. The first component records the remote calls
performed. -/
def filesize_check (w : SwiftWorld) (localFile : List ℕ)
    (object_container object_name : String) : List RemoteCall × Except PyErr Bool :=
  match w.stat object_container object_name with
  | none => ([RemoteCall.stat object_container object_name],
      Except.error (PyErr.valueError "Swift stat returned nothing"))
  | some object_stat =>
    match object_stat.content_length with
    | none => ([RemoteCall.stat object_container object_name],
        Except.error (PyErr.attributeError
          ("Content length not found for object " ++ object_name ++ " in swift stat")))
    | some n => ([RemoteCall.stat object_container object_name],
        Except.ok (decide (n = localFile.length)))

/-- Embedding of `md5_check` (lines 114-198 of the source),
parameterized by the digest function `md5hex`. Non-segmented path: strip
and compare the local whole-file digest with the ETag capture.
Segmented path: resolve the segment container, list the segments,
collect the remote segment ETags into a set, determine the effective
segment size, chunk the local file and compare digest sets. The first
component records the remote calls performed, in order. -/
def md5_check (md5hex : List ℕ → String) (w : SwiftWorld) (localFile : List ℕ)
    (object_container object_name : String) (segment_size : ℤ)
    (segment_container : Option String) : List RemoteCall × Except PyErr Bool :=
  match w.stat object_container object_name with
  | none => ([RemoteCall.stat object_container object_name],
      Except.error (PyErr.attributeError "Swift stat returned nothing"))
  | some object_stat =>
    match object_stat.manifest with
    | none =>
      match object_stat.etag with
      | none => ([RemoteCall.stat object_container object_name],
          Except.error (PyErr.attributeError
            ("ETag not found for object " ++ object_name ++ " in swift stat")))
      | some etag =>
        ([RemoteCall.stat object_container object_name],
          Except.ok (decide (pyStrip (md5hex localFile) = pyStrip etag)))
    | some _ =>
      let seg_container := resolveSegContainer segment_container object_container
      let segments := w.list seg_container object_name
      let baseCalls := [RemoteCall.stat object_container object_name,
        RemoteCall.list seg_container object_name]
      match remoteSegmentMd5s w seg_container segments ∅ with
      | (calls, Except.error e) => (baseCalls ++ calls, Except.error e)
      | (calls, Except.ok remote_segment_md5s) =>
        match effSegSize segment_size segments with
        | Except.error e => (baseCalls ++ calls, Except.error e)
        | Except.ok S =>
          (baseCalls ++ calls,
            Except.ok (decide (((pyChunks S localFile).map md5hex).toFinset
              = remote_segment_md5s)))

/-- Embedding of `check_integrity` (lines 63-83 of the source): the
Python expression `filesize_check(...) and md5_check(...)`, whose `and`
short-circuits, so `md5_check` runs only when `filesize_check` returned
a truthy value. -/
def check_integrity (md5hex : List ℕ → String) (w : SwiftWorld) (localFile : List ℕ)
    (object_container object_name : String) (segment_size : ℤ)
    (segment_container : Option String) : List RemoteCall × Except PyErr Bool :=
  match filesize_check w localFile object_container object_name with
  | (calls, Except.error e) => (calls, Except.error e)
  | (calls, Except.ok false) => (calls, Except.ok false)
  | (calls, Except.ok true) =>
    let r := md5_check md5hex w localFile object_container object_name
      segment_size segment_container
    (calls ++ r.1, r.2)

/-- Executable stand-in digest function for concrete runs: the decimal
bytes joined with a separator, prefixed by `d`. -/
def dHash (bs : List ℕ) : String :=
  "d" ++ String.join (bs.map (fun b => Nat.repr b ++ "x"))

/-- Constant digest function whose output is the lowercase form of the
remote digest stored in `wCase`; used for the case-sensitivity run. -/
def cHash (_ : List ℕ) : String := "abc"

/-- World with one segmented object `c/o` backed by a single segment
`o/1/0001` (naming encodes segment size 1) whose ETag is the digest of
the byte `7`. -/
def wSeg : SwiftWorld where
  stat := fun c o =>
    if c = "c" ∧ o = "o" then some ⟨some 1, some "m", none⟩
    else if c = "c_segments" ∧ o = "o/1/0001" then some ⟨some 1, none, some (dHash [7])⟩
    else none
  list := fun c o => if c = "c_segments" ∧ o = "o" then ["o/1/0001"] else []

/-- World with one segmented object `c/o` of three one-byte segments
whose ETags are the digests of the chunks of the original file
`[0, 0, 1]`: `dHash [0]`, `dHash [0]` (a duplicate) and `dHash [1]`. -/
def wDup : SwiftWorld where
  stat := fun c o =>
    if c = "c" ∧ o = "o" then some ⟨some 3, some "m", none⟩
    else if c = "c_segments" ∧ o = "o/1/s1" then some ⟨some 1, none, some (dHash [0])⟩
    else if c = "c_segments" ∧ o = "o/1/s2" then some ⟨some 1, none, some (dHash [0])⟩
    else if c = "c_segments" ∧ o = "o/1/s3" then some ⟨some 1, none, some (dHash [1])⟩
    else none
  list := fun c o => if c = "c_segments" ∧ o = "o" then ["o/1/s1", "o/1/s2", "o/1/s3"] else []

/-- World with one non-segmented object `c/o` of reported length 0 whose
ETag is the uppercase digest `ABC`. -/
def wCase : SwiftWorld where
  stat := fun c o => if c = "c" ∧ o = "o" then some ⟨some 0, none, some "ABC"⟩ else none
  list := fun _ _ => []

/-- World with one segmented object `c/o` of reported length 9 whose
segment listing is empty. -/
def wNoSegs : SwiftWorld where
  stat := fun c o => if c = "c" ∧ o = "o" then some ⟨some 9, some "m", none⟩ else none
  list := fun _ _ => []

/-- World whose every stat output is empty. -/
def wEmpty : SwiftWorld where
  stat := fun _ _ => none
  list := fun _ _ => []

/-- World with one object `c/o` carrying neither a manifest nor an
ETag. -/
def wNoFields : SwiftWorld where
  stat := fun c o => if c = "c" ∧ o = "o" then some ⟨some 5, none, none⟩ else none
  list := fun _ _ => []

/-- A `chunksNat` run is empty exactly when the size is zero or the file
is empty. -/
theorem chunksNat_eq_nil_iff (S : ℕ) (bs : List ℕ) :
    chunksNat S bs = [] ↔ S = 0 ∨ bs = [] := by
  rw [chunksNat_eq]
  split
  · simp_all
  · simp_all

/-- For a positive chunk size the loop produces `⌈length / S⌉` chunks,
written with natural division as `(length + S - 1) / S`. -/
theorem chunksNat_length (S : ℕ) (hS : S ≠ 0) (bs : List ℕ) :
    (chunksNat S bs).length = (bs.length + S - 1) / S := by
  generalize hn : bs.length = n
  induction n using Nat.strong_induction_on generalizing bs with
  | _ n ih =>
    rw [chunksNat_eq]
    by_cases hbs : bs = []
    · subst hbs
      simp only [List.length_nil] at hn
      subst hn
      simp only [hS, or_true, if_true, List.length_nil]
      rw [Nat.zero_add, Nat.div_eq_of_lt (by omega)]
    · have hn1 : 1 ≤ n := by
        subst hn; exact List.length_pos.mpr hbs
      simp only [hS, hbs, or_self, if_false, List.length_cons]
      have hdrop : (bs.drop S).length = n - S := by
        simp [List.length_drop, hn]
      have ihd := ih (n - S) (by omega) (bs.drop S) hdrop
      rw [ihd]
      have hSpos : 0 < S := Nat.pos_of_ne_zero hS
      by_cases hle : n ≤ S
      · have h1 : n - S = 0 := by omega
        rw [h1, Nat.zero_add, Nat.div_eq_of_lt (by omega)]
        have h2 : n + S - 1 = (n - 1) + S := by omega
        rw [h2, Nat.add_div_right _ hSpos, Nat.div_eq_of_lt (by omega)]
      · have h1 : n - S + S - 1 = (n - S - 1) + S := by omega
        have h2 : n + S - 1 = ((n - S - 1) + S) + S := by omega
        rw [h1, h2, Nat.add_div_right _ hSpos, Nat.add_div_right _ hSpos,
          Nat.add_div_right _ hSpos]

/-- For a positive chunk size every produced chunk is non-empty and at
most `S` bytes long. -/
theorem chunksNat_mem (S : ℕ) (hS : S ≠ 0) (bs : List ℕ) :
    ∀ c ∈ chunksNat S bs, c ≠ [] ∧ c.length ≤ S := by
  generalize hn : bs.length = n
  induction n using Nat.strong_induction_on generalizing bs with
  | _ n ih =>
    rw [chunksNat_eq]
    by_cases hbs : bs = []
    · simp [hbs]
    · simp only [hS, hbs, or_self, if_false, List.mem_cons]
      rintro c (rfl | hc)
      · refine ⟨?_, ?_⟩
        · rw [Ne, List.take_eq_nil_iff]
          push_neg
          exact ⟨hS, hbs⟩
        · simp [List.length_take]
      · have hlt : (bs.drop S).length < n := by
          subst hn
          simp only [List.length_drop]
          exact Nat.sub_lt (List.length_pos.mpr hbs) (Nat.pos_of_ne_zero hS)
        exact ih (bs.drop S).length hlt (bs.drop S) rfl c hc

/-- For a positive chunk size the chunks concatenate back to the whole
file: the loop reads every byte exactly once. -/
theorem chunksNat_flatten (S : ℕ) (hS : S ≠ 0) (bs : List ℕ) :
    (chunksNat S bs).flatten = bs := by
  generalize hn : bs.length = n
  induction n using Nat.strong_induction_on generalizing bs with
  | _ n ih =>
    rw [chunksNat_eq]
    by_cases hbs : bs = []
    · simp [hbs]
    · simp only [hS, hbs, or_self, if_false, List.flatten_cons]
      have hlt : (bs.drop S).length < n := by
        subst hn
        simp only [List.length_drop]
        exact Nat.sub_lt (List.length_pos.mpr hbs) (Nat.pos_of_ne_zero hS)
      rw [ih (bs.drop S).length hlt (bs.drop S) rfl, List.take_append_drop]

/-- For a positive chunk size every chunk except possibly the last is
exactly `S` bytes long. -/
theorem chunksNat_dropLast (S : ℕ) (hS : S ≠ 0) (bs : List ℕ) :
    ∀ c ∈ (chunksNat S bs).dropLast, c.length = S := by
  generalize hn : bs.length = n
  induction n using Nat.strong_induction_on generalizing bs with
  | _ n ih =>
    rw [chunksNat_eq]
    by_cases hbs : bs = []
    · simp [hbs]
    · simp only [hS, hbs, or_self, if_false]
      by_cases hrest : chunksNat S (bs.drop S) = []
      · simp [hrest]
      · rw [List.dropLast_cons_of_ne_nil hrest]
        have hdrop : bs.drop S ≠ [] := by
          intro hdn
          exact hrest ((chunksNat_eq_nil_iff S (bs.drop S)).mpr (Or.inr hdn))
        have hSlen : S < bs.length := by
          by_contra hle
          push_neg at hle
          exact hdrop (List.drop_eq_nil_of_le hle)
        have hlt : (bs.drop S).length < n := by
          subst hn
          simp only [List.length_drop]
          exact Nat.sub_lt (List.length_pos.mpr hbs) (Nat.pos_of_ne_zero hS)
        intro c hc0
        rcases List.mem_cons.mp hc0 with rfl | hc
        · simp [List.length_take]
          omega
        · exact ih (bs.drop S).length hlt (bs.drop S) rfl c hc

/-- Helper: in the segmented path, once the remote segment digest set
and the effective segment size are determined, `md5_check` returns the
set comparison of the local chunk digests against the remote set. -/
theorem md5_check_segmented_eq (md5hex : List ℕ → String) (w : SwiftWorld)
    (f : List ℕ) (c n : String) (sz : ℤ) (sc : Option String) (st : StatRecord)
    (m : String) (calls : List RemoteCall) (R : Finset String) (S : ℤ)
    (h1 : w.stat c n = some st) (h2 : st.manifest = some m)
    (h3 : remoteSegmentMd5s w (resolveSegContainer sc c)
      (w.list (resolveSegContainer sc c) n) ∅ = (calls, Except.ok R))
    (h4 : effSegSize sz (w.list (resolveSegContainer sc c) n) = Except.ok S) :
    (md5_check md5hex w f c n sz sc).2
      = Except.ok (decide (((pyChunks S f).map md5hex).toFinset = R)) := by
  simp only [md5_check, h1, h2, h3, h4]

/-- C3: for every local file and every remote record with a parseable
total size, `filesize_check` returns `true` iff the reported size equals
the local byte length, with no other condition affecting the result. -/
theorem filesize_check_true_iff_length_eq (w : SwiftWorld) (f : List ℕ)
    (c n : String) (st : StatRecord) (L : ℕ)
    (h1 : w.stat c n = some st) (h2 : st.content_length = some L) :
    (filesize_check w f c n).2 = Except.ok (decide (L = f.length)) := by
  simp only [filesize_check, h1, h2]

/-- Witness for C3: an empty local file against a reported size of 0
passes the size check. -/
theorem filesize_check_true_iff_length_eq_witness :
    (filesize_check wCase [] "c" "o").2 = Except.ok true := by
  have h := filesize_check_true_iff_length_eq wCase [] "c" "o"
    ⟨some 0, none, some "ABC"⟩ 0 rfl rfl
  simpa using h

/-- C7: for a remote record with neither a manifest nor an ETag,
`md5_check` raises an `AttributeError` rather than returning a
boolean. -/
theorem md5_check_no_manifest_no_etag_raises (md5hex : List ℕ → String)
    (w : SwiftWorld) (f : List ℕ) (c n : String) (sz : ℤ) (sc : Option String)
    (st : StatRecord) (h1 : w.stat c n = some st) (h2 : st.manifest = none)
    (h3 : st.etag = none) :
    (md5_check md5hex w f c n sz sc).2
      = Except.error (PyErr.attributeError
          ("ETag not found for object " ++ n ++ " in swift stat")) := by
  simp only [md5_check, h1, h2, h3]

/-- Witness for C7 at a concrete record lacking both fields. -/
theorem md5_check_no_manifest_no_etag_raises_witness :
    (md5_check dHash wNoFields [] "c" "o" 0 none).2
      = Except.error (PyErr.attributeError
          ("ETag not found for object " ++ "o" ++ " in swift stat")) :=
  md5_check_no_manifest_no_etag_raises dHash wNoFields [] "c" "o" 0 none
    ⟨some 5, none, none⟩ rfl rfl rfl

/-- Counterexample to C8: on an empty stat output the two checkers do
not fail with the same error — `filesize_check` raises `ValueError`
while `md5_check` raises `AttributeError` (with the same message). -/
theorem empty_stat_error_types_differ :
    (filesize_check wEmpty [] "c" "o").2
      = Except.error (PyErr.valueError "Swift stat returned nothing") ∧
    (md5_check dHash wEmpty [] "c" "o" 0 none).2
      = Except.error (PyErr.attributeError "Swift stat returned nothing") ∧
    PyErr.valueError "Swift stat returned nothing"
      ≠ PyErr.attributeError "Swift stat returned nothing" :=
  ⟨rfl, rfl, by decide⟩

/-- C8 amended: on an empty stat output both checkers fail with an
error whose message is `Swift stat returned nothing` rather than
returning a boolean, but with different exception classes:
`filesize_check` raises `ValueError` and `md5_check` raises
`AttributeError`. -/
theorem empty_stat_both_error (md5hex : List ℕ → String) (w : SwiftWorld)
    (f : List ℕ) (c n : String) (sz : ℤ) (sc : Option String)
    (h : w.stat c n = none) :
    (filesize_check w f c n).2
      = Except.error (PyErr.valueError "Swift stat returned nothing") ∧
    (md5_check md5hex w f c n sz sc).2
      = Except.error (PyErr.attributeError "Swift stat returned nothing") := by
  constructor
  · simp only [filesize_check, h]
  · simp only [md5_check, h]

/-- Witness for the amended C8 on the concrete empty world. -/
theorem empty_stat_both_error_witness :
    (filesize_check wEmpty [] "c" "o").2
      = Except.error (PyErr.valueError "Swift stat returned nothing") ∧
    (md5_check dHash wEmpty [] "c" "o" 0 none).2
      = Except.error (PyErr.attributeError "Swift stat returned nothing") :=
  empty_stat_both_error dHash wEmpty [] "c" "o" 0 none rfl

/-- C5: `check_integrity` is the short-circuiting conjunction of the
two checks: when the size check returns `false` the combined check
returns `false` with exactly the size check's remote calls (so
`md5_check` performs no remote read and can raise no error), and when
the size check returns `true` the combined result and the additional
calls are exactly those of `md5_check`. -/
theorem check_integrity_short_circuit (md5hex : List ℕ → String)
    (w : SwiftWorld) (f : List ℕ) (c n : String) (sz : ℤ) (sc : Option String) :
    (∀ cs, filesize_check w f c n = (cs, Except.ok false) →
      check_integrity md5hex w f c n sz sc = (cs, Except.ok false)) ∧
    (∀ cs, filesize_check w f c n = (cs, Except.ok true) →
      check_integrity md5hex w f c n sz sc
        = (cs ++ (md5_check md5hex w f c n sz sc).1,
           (md5_check md5hex w f c n sz sc).2)) := by
  constructor
  · intro cs h
    simp only [check_integrity, h]
  · intro cs h
    simp only [check_integrity, h]

/-- Witness for C5: a 10-byte local file against a reported size of 9,
where the segmented digest check would raise `IndexError` (empty
segment listing, no size hint); the combined check still returns
`false` after only the one size-check stat call. -/
theorem check_integrity_short_circuit_witness :
    check_integrity dHash wNoSegs (List.replicate 10 0) "c" "o" 0 none
      = ([RemoteCall.stat "c" "o"], Except.ok false) ∧
    (md5_check dHash wNoSegs (List.replicate 10 0) "c" "o" 0 none).2
      = Except.error PyErr.indexError := by
  constructor
  · exact (check_integrity_short_circuit dHash wNoSegs (List.replicate 10 0)
      "c" "o" 0 none).1 [RemoteCall.stat "c" "o"] rfl
  · rfl

/-- Counterexample to C2: the comparison in the non-segmented path of
`md5_check` is case-sensitive — a remote digest `ABC` whose lowercase
form equals the local digest `abc` yields `false`, not `true`. -/
theorem md5_check_case_sensitive_cex :
    cHash [] = pyLower (pyStrip "ABC") ∧
    (md5_check cHash wCase [] "c" "o" 0 none).2 = Except.ok false :=
  ⟨by decide, by decide⟩

/-- C2 amended: for a non-segmented remote object, `md5_check` returns
`true` iff the whole-file digest equals the remote digest after
whitespace trimming of both sides, compared case-sensitively. -/
theorem md5_check_nonsegmented_iff (md5hex : List ℕ → String)
    (w : SwiftWorld) (f : List ℕ) (c n : String) (sz : ℤ) (sc : Option String)
    (st : StatRecord) (e : String) (h1 : w.stat c n = some st)
    (h2 : st.manifest = none) (h3 : st.etag = some e) :
    (md5_check md5hex w f c n sz sc).2
      = Except.ok (decide (pyStrip (md5hex f) = pyStrip e)) := by
  simp only [md5_check, h1, h2, h3]

/-- Witness for the amended C2 at the uppercase remote digest. -/
theorem md5_check_nonsegmented_iff_witness :
    (md5_check cHash wCase [] "c" "o" 0 none).2 = Except.ok false := by
  have h := md5_check_nonsegmented_iff cHash wCase [] "c" "o" 0 none
    ⟨some 0, none, some "ABC"⟩ "ABC" rfl rfl rfl
  rw [h]
  decide

/-- Counterexample to C1: with duplicate remote segment digests a
single-byte corruption can be masked. The remote segments carry the
digests of the chunks of `[0, 0, 1]` (segment size 1); the local file
`[0, 1, 1]` differs from it in exactly the one byte of chunk 1, yet
`md5_check` returns `true` because the digest sets coincide. -/
theorem md5_check_single_byte_corruption_masked :
    pyChunks 1 [0, 1, 1] = [[0], [1], [1]] ∧
    pyChunks 1 [0, 0, 1] = [[0], [0], [1]] ∧
    (md5_check dHash wDup [0, 1, 1] "c" "o" 0 none).2 = Except.ok true := by
  refine ⟨by simp [pyChunks, chunksNat_eq], by simp [pyChunks, chunksNat_eq], ?_⟩
  have h := md5_check_segmented_eq dHash wDup [0, 1, 1] "c" "o" 0 none
    ⟨some 3, some "m", none⟩ "m"
    [RemoteCall.stat "c_segments" "o/1/s1", RemoteCall.stat "c_segments" "o/1/s2",
      RemoteCall.stat "c_segments" "o/1/s3"]
    (insert (pyStrip (dHash [1])) (insert (pyStrip (dHash [0])) ∅)) 1
    rfl rfl (by decide) (by decide)
  rw [h]
  have hc : pyChunks 1 [0, 1, 1] = [[0], [1], [1]] := by simp [pyChunks, chunksNat_eq]
  rw [hc]
  decide

/-- C1 amended: for a segmented remote object, `md5_check` returns
`true` iff chunking the local file at the effective segment size yields
exactly the same set of digests as the remote segment digests — set
equality, ignoring multiplicity and order. -/
theorem md5_check_segmented_true_iff_digest_sets_equal (md5hex : List ℕ → String)
    (w : SwiftWorld) (f : List ℕ) (c n : String) (sz : ℤ) (sc : Option String)
    (st : StatRecord) (m : String) (calls : List RemoteCall) (R : Finset String)
    (S : ℤ) (h1 : w.stat c n = some st) (h2 : st.manifest = some m)
    (h3 : remoteSegmentMd5s w (resolveSegContainer sc c)
      (w.list (resolveSegContainer sc c) n) ∅ = (calls, Except.ok R))
    (h4 : effSegSize sz (w.list (resolveSegContainer sc c) n) = Except.ok S) :
    (md5_check md5hex w f c n sz sc).2
      = Except.ok (decide (((pyChunks S f).map md5hex).toFinset = R)) :=
  md5_check_segmented_eq md5hex w f c n sz sc st m calls R S h1 h2 h3 h4

/-- Witness for the amended C1: one 1-byte segment whose digest matches
the local file's single chunk digest, so the check passes. -/
theorem md5_check_segmented_true_iff_digest_sets_equal_witness :
    (md5_check dHash wSeg [7] "c" "o" 0 none).2 = Except.ok true := by
  have h := md5_check_segmented_true_iff_digest_sets_equal dHash wSeg [7] "c" "o" 0 none
    ⟨some 1, some "m", none⟩ "m" [RemoteCall.stat "c_segments" "o/1/0001"]
    (insert (pyStrip (dHash [7])) ∅) 1 rfl rfl (by decide) (by decide)
  rw [h]
  have hc : pyChunks 1 [7] = [[7]] := by simp [pyChunks, chunksNat_eq]
  rw [hc]
  decide

/-- C4: the effective segment size in the segmented path is the hint
whenever it is non-zero; when the hint is zero it is the integer parsed
from the second-to-last slash-separated component of the first listed
segment identifier. -/
theorem effSegSize_hint_or_inferred (sz : ℤ) (segments : List String)
    (s0 : String) (rest : List String) (ps : List String) (a b : String) (k : ℤ) :
    (sz ≠ 0 → effSegSize sz segments = Except.ok sz) ∧
    (segments = s0 :: rest → pySplitSlash s0 = ps ++ [a, b] →
      pyInt a = Except.ok k → effSegSize 0 segments = Except.ok k) := by
  constructor
  · intro h
    unfold effSegSize
    rw [if_pos h]
  · rintro rfl hsplit hk
    have hlen : 2 ≤ (pySplitSlash s0).length := by
      rw [hsplit]
      simp
    have h5 : (pySplitSlash s0).get? ((pySplitSlash s0).length - 2) = some a := by
      rw [hsplit]
      have hidx : (ps ++ [a, b]).length - 2 = ps.length := by simp
      rw [hidx, List.get?_eq_getElem?, List.getElem?_append_right (le_refl _)]
      simp
    have h6 := @List.get?_eq_get _ (pySplitSlash s0) ((pySplitSlash s0).length - 2) (by omega)
    have hget := Option.some.inj (h6.symm.trans h5)
    simp only [effSegSize, ne_eq, not_true_eq_false, if_false, hlen, dite_true, hget, hk]

/-- Witness for C4: a segment identifier encoding `524288` in its
second-to-last path component infers 524288 with a zero hint, and a
non-zero hint of 7 overrides inference. -/
theorem effSegSize_hint_or_inferred_witness :
    effSegSize 0 ["obj/524288/000001"] = Except.ok 524288 ∧
    effSegSize 7 ["obj/524288/000001"] = Except.ok 7 := by
  constructor
  · exact (effSegSize_hint_or_inferred 0 ["obj/524288/000001"] "obj/524288/000001"
      [] ["obj"] "524288" "000001" 524288).2 rfl (by decide) (by decide)
  · exact (effSegSize_hint_or_inferred 7 ["obj/524288/000001"] "obj/524288/000001"
      [] ["obj"] "524288" "000001" 524288).1 (by decide)

/-- Counterexample to C6: an explicitly supplied empty-string override
is ignored — the container queried for segments (recorded in the call
trace) is the default `c_segments`, not the supplied `""`. -/
theorem segment_container_empty_override_ignored :
    (md5_check dHash wNoSegs [] "c" "o" 1 (some "")).1
      = [RemoteCall.stat "c" "o", RemoteCall.list "c_segments" "o"] ∧
    ("c_segments" : String) ≠ "" :=
  ⟨by decide, by decide⟩

/-- C6 amended: in the segmented path the container queried for
segments is the supplied override when the override is a non-empty
string; an empty-string override, like an absent one, falls back to the
remote object's container name with `_segments` appended. -/
theorem segment_container_resolution (md5hex : List ℕ → String) (w : SwiftWorld)
    (f : List ℕ) (c n : String) (sz : ℤ) (sc : Option String) (st : StatRecord)
    (m : String) (h1 : w.stat c n = some st) (h2 : st.manifest = some m) :
    (md5_check md5hex w f c n sz sc).1.take 2
      = [RemoteCall.stat c n, RemoteCall.list (resolveSegContainer sc c) n] ∧
    (∀ s, s ≠ "" → resolveSegContainer (some s) c = s) ∧
    resolveSegContainer none c = c ++ "_segments" ∧
    resolveSegContainer (some "") c = c ++ "_segments" := by
  refine ⟨?_, ?_, rfl, rfl⟩
  · simp only [md5_check, h1, h2]
    rcases hr : remoteSegmentMd5s w (resolveSegContainer sc c)
      (w.list (resolveSegContainer sc c) n) ∅ with ⟨calls, r⟩
    rcases r with e | R
    · simp
    · rcases he : effSegSize sz (w.list (resolveSegContainer sc c) n) with e | S
      · simp
      · simp
  · intro s hs
    simp [resolveSegContainer, hs]

/-- Witness for the amended C6: with no override the trace queries
`c_segments`. -/
theorem segment_container_resolution_witness :
    (md5_check dHash wSeg [7] "c" "o" 0 none).1.take 2
      = [RemoteCall.stat "c" "o", RemoteCall.list (resolveSegContainer none "c") "o"] := by
  exact (segment_container_resolution dHash wSeg [7] "c" "o" 0 none
    ⟨some 1, some "m", none⟩ "m" rfl rfl).1

/-- C9: for a segmented remote object whose segment listing is empty,
`md5_check` raises `IndexError` when the size hint is zero (indexing
the first element of the empty listing), and otherwise returns the
comparison of the local chunk-digest set against the empty set. -/
theorem md5_check_empty_segment_listing (md5hex : List ℕ → String) (w : SwiftWorld)
    (f : List ℕ) (c n : String) (sz : ℤ) (sc : Option String) (st : StatRecord)
    (m : String) (h1 : w.stat c n = some st) (h2 : st.manifest = some m)
    (h3 : w.list (resolveSegContainer sc c) n = []) :
    (sz = 0 → (md5_check md5hex w f c n sz sc).2 = Except.error PyErr.indexError) ∧
    (sz ≠ 0 → (md5_check md5hex w f c n sz sc).2
      = Except.ok (decide (((pyChunks sz f).map md5hex).toFinset = (∅ : Finset String)))) := by
  constructor
  · rintro rfl
    simp only [md5_check, h1, h2, h3]
    rfl
  · intro hsz
    simp only [md5_check, h1, h2, h3]
    have he : effSegSize sz [] = Except.ok sz := by
      unfold effSegSize
      rw [if_pos hsz]
    simp only [remoteSegmentMd5s, he]

/-- Witness for C9: with an empty listing a zero hint raises
`IndexError`, while a non-zero hint of 5 on an empty local file
compares the empty digest set against the empty remote set and
passes. -/
theorem md5_check_empty_segment_listing_witness :
    (md5_check dHash wNoSegs [] "c" "o" 0 none).2 = Except.error PyErr.indexError ∧
    (md5_check dHash wNoSegs [] "c" "o" 5 none).2 = Except.ok true := by
  constructor
  · exact (md5_check_empty_segment_listing dHash wNoSegs [] "c" "o" 0 none
      ⟨some 9, some "m", none⟩ "m" rfl rfl rfl).1 rfl
  · have h := (md5_check_empty_segment_listing dHash wNoSegs [] "c" "o" 5 none
      ⟨some 9, some "m", none⟩ "m" rfl rfl rfl).2 (by decide)
    rw [h]
    have hc : pyChunks 5 [] = [] := by simp [pyChunks, chunksNat_eq]
    rw [hc]
    decide

/-- C10: for every local file and every effective segment size at least
1, the chunking loop terminates after producing exactly
`⌈length / S⌉` chunks — written `(length + S - 1) / S` — each chunk
non-empty and at most `S` bytes, every chunk except possibly the last
exactly `S` bytes, and the chunks concatenating back to the file. -/
theorem md5_chunking_terminates_spec (S : ℤ) (hS : 1 ≤ S) (f : List ℕ) :
    (pyChunks S f).length = (f.length + S.toNat - 1) / S.toNat ∧
    (∀ ch ∈ pyChunks S f, ch ≠ [] ∧ ch.length ≤ S.toNat) ∧
    (∀ ch ∈ (pyChunks S f).dropLast, ch.length = S.toNat) ∧
    (pyChunks S f).flatten = f := by
  have hS0 : S.toNat ≠ 0 := by omega
  have hpy : pyChunks S f = chunksNat S.toNat f := by
    unfold pyChunks
    rw [if_neg (by omega)]
  rw [hpy]
  exact ⟨chunksNat_length S.toNat hS0 f, chunksNat_mem S.toNat hS0 f,
    chunksNat_dropLast S.toNat hS0 f, chunksNat_flatten S.toNat hS0 f⟩

/-- Witness for C10: a 3-byte file at segment size 2 yields two chunks
which concatenate back to the file. -/
theorem md5_chunking_terminates_spec_witness :
    (pyChunks 2 [1, 2, 3]).length = 2 ∧ (pyChunks 2 [1, 2, 3]).flatten = [1, 2, 3] := by
  have h := md5_chunking_terminates_spec 2 (by norm_num) [1, 2, 3]
  refine ⟨?_, h.2.2.2⟩
  rw [h.1]
  decide

end Taylor
